import Mathlib

/-!
Verification of the Closure tab-lifecycle orchestrator (service worker,
version 1.4.0).  The JavaScript source is shallowly embedded: pure helpers
become Lean functions, the chrome.* platform surface becomes an explicit
`World` state threaded through the handlers, and every externally visible
action (storage write, tab close, group creation, notification, badge) is
recorded in an event trace so that ordering properties can be stated.
-/

namespace Closure

/-- JS `x || d` for an optional string field: `undefined` and the empty
string are falsy and are replaced by the default. -/
def jsOr (x : Option String) (d : String) : String :=
  match x with
  | none => d
  | some s => if s = "" then d else s

/-- JS `x || d` for an optional numeric timestamp: `undefined` and `0` are
falsy and are replaced by the default. -/
def jsOrTime (x : Option Int) (d : Int) : Int :=
  match x with
  | none => d
  | some t => if t = 0 then d else t

/-- Available tab group colors (deterministic cycling); source constant
`GROUP_COLORS`. -/
def GROUP_COLORS : List String :=
  ["grey", "blue", "red", "yellow", "green", "pink", "purple", "cyan", "orange"]

/-- Source constant `STUCK_TAB_THRESHOLD_MS` (1 hour). -/
def STUCK_TAB_THRESHOLD_MS : Int := 60 * 60 * 1000

/-- Source constant `RAM_PER_TAB_MB`. -/
def RAM_PER_TAB_MB : Nat := 50

/-- Source constant `NUCLEAR_IDLE_HOURS`. -/
def NUCLEAR_IDLE_HOURS : Int := 4

/-- Source constant `TOPIC_GROUPING_MIN_TABS`. -/
def TOPIC_GROUPING_MIN_TABS : Nat := 4

/-- Source constant `BADGE_CLEAR_ALARM`. -/
def BADGE_CLEAR_ALARM : String := "clear-sweep-badge"

/-- Source constant `SNOOZE_ALARM_PREFIX` (`"snooze-"`). -/
def SNOOZE_ALARM_HEAD : String := "snooze-"

/-- Common multi-part TLD suffixes; source constant `MULTI_PART_TLDS`. -/
def MULTI_PART_TLDS : List String :=
  [ "co.uk", "org.uk", "me.uk", "ac.uk", "gov.uk", "net.uk",
    "co.jp", "or.jp", "ne.jp", "ac.jp", "go.jp",
    "com.au", "net.au", "org.au", "edu.au", "gov.au",
    "co.nz", "net.nz", "org.nz", "govt.nz",
    "co.in", "net.in", "org.in", "ac.in", "gov.in",
    "com.br", "net.br", "org.br", "gov.br",
    "co.kr", "or.kr", "ne.kr", "go.kr",
    "co.za", "org.za", "net.za", "gov.za",
    "com.mx", "org.mx", "net.mx", "gob.mx",
    "com.cn", "net.cn", "org.cn", "gov.cn",
    "com.tw", "org.tw", "net.tw", "gov.tw",
    "com.hk", "org.hk", "net.hk", "gov.hk",
    "com.sg", "org.sg", "net.sg", "gov.sg",
    "co.il", "org.il", "net.il", "ac.il",
    "com.ar", "org.ar", "net.ar", "gov.ar",
    "com.tr", "org.tr", "net.tr", "gov.tr",
    "co.id", "or.id", "go.id", "web.id",
    "co.th", "or.th", "go.th", "in.th",
    "com.ph", "org.ph", "net.ph", "gov.ph",
    "com.my", "org.my", "net.my", "gov.my",
    "com.pk", "org.pk", "net.pk", "gov.pk",
    "com.ng", "org.ng", "gov.ng",
    "com.eg", "org.eg", "gov.eg",
    "co.ke", "or.ke", "go.ke",
    "com.ua", "org.ua", "net.ua",
    "com.pl", "org.pl", "net.pl",
    "com.es", "org.es", "nom.es",
    "com.pt", "org.pt", "net.pt",
    "co.it" ]

/-- Character-level model of JS `host.split('.')` (split on every
occurrence, keeping empty pieces): auxiliary accumulator version. -/
def splitDotAux : List Char → List Char → List (List Char)
  | [], acc => [acc.reverse]
  | x :: xs, acc =>
      if x = '.' then acc.reverse :: splitDotAux xs []
      else splitDotAux xs (x :: acc)

/-- JS `host.split('.')` as a list of label character lists. -/
def splitDot (s : String) : List (List Char) :=
  splitDotAux s.data []

/-- JS `parts.join('.')` at the character level. -/
def joinDotChars : List (List Char) → List Char
  | [] => []
  | [l] => l
  | l :: ls => l ++ '.' :: joinDotChars ls

/-- JS `parts.slice(-n).join('.')` as a string (for nonempty `parts`,
`slice(-n)` is the last `min n length` elements). -/
def joinLast (parts : List (List Char)) (n : Nat) : String :=
  String.mk (joinDotChars (parts.drop (parts.length - n)))

/-- JS `hostname.replace(/^www\., '')`: drop one leading `www.`. -/
def stripWww (hostname : String) : String :=
  match hostname.data with
  | 'w' :: 'w' :: 'w' :: '.' :: rest => String.mk rest
  | _ => hostname

/-- Source `getRegistrableDomain(hostname)`: strip `www.`, then take the
last two labels, or the last three when the last two form a known
multi-part TLD; hostnames of at most two labels are returned whole. -/
def getRegistrableDomain (hostname : String) : String :=
  let host := stripWww hostname
  let parts := splitDot host
  if parts.length ≤ 2 then host
  else
    let lastTwo := joinLast parts 2
    if MULTI_PART_TLDS.contains lastTwo then joinLast parts 3
    else joinLast parts 2

/-- Spec-side restatement of the registrable-domain rule, for the
refinement comparison of claim C5: strip a leading `www.`, then return the
last two dot-separated labels, except that when the last two labels form an
entry of the multi-part public-suffix table the last three labels are
returned instead. -/
def specRegistrableDomain (hostname : String) : String :=
  let parts := splitDot (stripWww hostname)
  if MULTI_PART_TLDS.contains (joinLast parts 2) then joinLast parts 3
  else joinLast parts 2

/-- Result of the platform URL parser (`new URL(url)`); the source reads
only the `protocol` (with trailing colon) and `hostname` fields. -/
structure ParsedUrl where
  protocol : String
  hostname : String
deriving Repr, DecidableEq

/-- ASCII lowercase of a string, character by character (JS
`toLowerCase()` restricted to the ASCII inputs the orchestrator sees). -/
def jsToLower (s : String) : String :=
  String.mk (s.data.map Char.toLower)

/-- ASCII uppercase of a string, character by character (JS
`toUpperCase()` restricted to the ASCII inputs the orchestrator sees). -/
def jsToUpper (s : String) : String :=
  String.mk (s.data.map Char.toUpper)

/-- Split a character list at the first occurrence of `://`, returning the
scheme characters before it and the remainder after it. -/
def splitScheme : List Char → Option (List Char × List Char)
  | [] => none
  | ':' :: '/' :: '/' :: rest => some ([], rest)
  | c :: cs => (splitScheme cs).map (fun p => (c :: p.1, p.2))

/-- Modelled from the platform `new URL` constructor for the common
`scheme://host[/:?#]...` shape used by the scenarios: lowercases scheme and
host, fails (`none`) when there is no `://` separator or an empty
scheme/host. -/
def parseUrl (url : String) : Option ParsedUrl :=
  match splitScheme url.data with
  | none => none
  | some (scheme, rest) =>
      let host := rest.takeWhile
        (fun c => !(c = '/' || c = ':' || c = '?' || c = '#'))
      if scheme.isEmpty || host.isEmpty then none
      else some ⟨jsToLower (String.mk scheme) ++ ":", jsToLower (String.mk host)⟩

/-- Source `getRootDomain` on an already-parsed URL: reject non-http(s)
protocols, otherwise extract the registrable domain of the hostname.  The
`none` argument is the `catch` branch of the source (URL parse failure). -/
def getRootDomainP (p : Option ParsedUrl) : Option String :=
  match p with
  | none => none
  | some parsed =>
      if parsed.protocol ≠ "http:" ∧ parsed.protocol ≠ "https:" then none
      else some (getRegistrableDomain parsed.hostname)

/-- Source `getRootDomain(url)`. -/
def getRootDomain (url : String) : Option String :=
  getRootDomainP (parseUrl url)

/-- One djb2 step of `domainToColorIndex`: the source computes
`((hash << 5) + hash + domain.charCodeAt(i)) >>> 0`, and since `x >>> 0`
is `x mod 2^32` on these magnitudes this is `(33 * hash + code) mod 2^32`. -/
def djb2Step (h : Nat) (c : Char) : Nat :=
  (h * 32 + h + c.toNat) % 4294967296

/-- Source `domainToColorIndex(domain)`: djb2 over the character codes,
reduced modulo the palette size. -/
def domainToColorIndex (domain : String) : Nat :=
  (domain.data.foldl djb2Step 5381) % GROUP_COLORS.length

-- ─── Roundtrip lemmas for the split/join pair ───────────────────

theorem splitDotAux_ne_nil (cs : List Char) (acc : List Char) :
    splitDotAux cs acc ≠ [] := by
  induction cs generalizing acc with
  | nil => simp [splitDotAux]
  | cons x xs ih =>
      simp only [splitDotAux]
      split
      · simp
      · exact ih (x :: acc)

theorem joinDotChars_splitDotAux (cs : List Char) (acc : List Char) :
    joinDotChars (splitDotAux cs acc) = acc.reverse ++ cs := by
  induction cs generalizing acc with
  | nil => simp [splitDotAux, joinDotChars]
  | cons x xs ih =>
      by_cases hx : x = '.'
      · subst hx
        simp only [splitDotAux, if_pos rfl]
        have hne := splitDotAux_ne_nil xs []
        cases h : splitDotAux xs [] with
        | nil => exact absurd h hne
        | cons p ps =>
            have hjoin := ih []
            rw [h] at hjoin
            simp only [List.reverse_nil, List.nil_append] at hjoin
            simp [joinDotChars, hjoin]
      · simp only [splitDotAux, if_neg hx]
        rw [ih (x :: acc)]
        simp

theorem joinDotChars_splitDot (s : String) :
    joinDotChars (splitDot s) = s.data := by
  simpa using joinDotChars_splitDotAux s.data []

theorem string_mk_data (s : String) : String.mk s.data = s := rfl

/-- The source registrable-domain computation agrees with the spec-side
last-two/last-three-labels rule on every hostname. -/
theorem getRegistrableDomain_eq_spec (hostname : String) :
    getRegistrableDomain hostname = specRegistrableDomain hostname := by
  unfold getRegistrableDomain specRegistrableDomain
  by_cases hlen : (splitDot (stripWww hostname)).length ≤ 2
  · have h2 : (splitDot (stripWww hostname)).length - 2 = 0 := by omega
    have h3 : (splitDot (stripWww hostname)).length - 3 = 0 := by omega
    have hjoin : joinLast (splitDot (stripWww hostname)) 2 = stripWww hostname := by
      unfold joinLast
      rw [h2, List.drop_zero, joinDotChars_splitDot, string_mk_data]
    have hjoin3 : joinLast (splitDot (stripWww hostname)) 3 = stripWww hostname := by
      unfold joinLast
      rw [h3, List.drop_zero, joinDotChars_splitDot, string_mk_data]
    simp only [if_pos hlen]
    rw [hjoin, hjoin3]
    split <;> rfl
  · simp only [if_neg hlen]



-- ─── Data model: tabs, groups, persistent store, events ─────────

/-- A browser tab as observed through `chrome.tabs`; `lastAccessed`,
`title` and `favIconUrl` may be absent (JS `undefined`), `groupId` is `-1`
for an ungrouped tab. -/
structure Tab where
  id : Nat
  url : String
  title : Option String
  favIconUrl : Option String
  pinned : Bool
  audible : Bool
  lastAccessed : Option Int
  status : String
  groupId : Int
deriving Repr, DecidableEq

/-- A tab group as managed through `chrome.tabGroups`. -/
structure TabGroup where
  id : Int
  title : String
  color : String
  collapsed : Bool
deriving Repr, DecidableEq

/-- The persisted `config` record (fields read by the orchestrator). -/
structure Config where
  groupThreshold : Nat
  idleThresholdHours : Int
  whitelist : List String
  enableTopicGrouping : Bool
deriving Repr, DecidableEq

/-- The persisted `stats` counters. -/
structure Stats where
  tabsTidiedThisWeek : Nat
  ramSavedEstimate : Nat
deriving Repr, DecidableEq

/-- One element of the persisted `archived[]` list. -/
structure ArchivedEntry where
  url : String
  title : String
  favicon : String
  timestamp : Int
  summary : String
  summaryType : String
  domain : String
deriving Repr, DecidableEq

/-- One element of the persisted `swept[]` list. -/
structure SweptEntry where
  url : String
  title : String
  timestamp : Int
  reason : String
deriving Repr, DecidableEq

/-- Raw cluster object as decoded from the AI JSON response:
`title` may be missing, `indices` may be missing or not an array. -/
structure RawCluster where
  title : Option String
  indices : Option (List Int)
deriving Repr, DecidableEq

/-- Outcome of the AI call plus JSON decoding in `runTopicGrouping`:
`promptAi` returning null, a response without a recognizable JSON object,
a `JSON.parse` failure, a parsed object without a `clusters` array, or a
decoded cluster list. -/
inductive AiParse where
  | noResponse
  | noJson
  | parseError
  | notClusters
  | clusters (cs : List RawCluster)
deriving Repr, DecidableEq

/-- Externally visible actions, recorded in execution order. -/
inductive Event where
  | writeSweptStats (entry : SweptEntry) (stats : Stats)
  | writeArchivedStats (entry : ArchivedEntry) (stats : Stats)
  | removeTab (id : Nat)
  | groupTabs (tabIds : List Nat) (groupId : Int)
  | updateGroup (groupId : Int) (title : String) (color : String) (collapsed : Bool)
  | notify (message : String)
  | setBadge (count : Nat)
  | createAlarm (name : String)
deriving Repr, DecidableEq

/-- The world as seen by the service worker: the tab provider state, the
persistent store, the alarm registry, the in-memory in-flight set, the
clock, and the two AI oracles (`ai` is the text returned by `promptAi`,
`none` when it fails; `aiClusters` is the composite of `promptAi`, the
JSON-object regex match and `JSON.parse` in `runTopicGrouping`). -/
structure World where
  tabs : List Tab
  groups : List TabGroup
  config : Option Config
  archived : List ArchivedEntry
  swept : List SweptEntry
  stats : Option Stats
  archivingTabs : List Nat
  alarms : List String
  now : Int
  nextGroupId : Int
  ai : String → Option String
  aiClusters : String → AiParse
  titleError : String → Option String

/-- `config?.whitelist ?? []`. -/
def World.whitelistOf (w : World) : List String :=
  (w.config.map (·.whitelist)).getD []

/-- Source `isDomainWhitelisted(domain)`. -/
def isDomainWhitelisted (w : World) (domain : String) : Bool :=
  w.whitelistOf.contains domain

/-- `config?.groupThreshold ?? DEFAULT_CONFIG.groupThreshold` (3). -/
def World.groupThresholdOf (w : World) : Nat :=
  (w.config.map (·.groupThreshold)).getD 3

/-- `config?.idleThresholdHours ?? DEFAULT_CONFIG.idleThresholdHours` (24). -/
def World.idleThresholdHoursOf (w : World) : Int :=
  (w.config.map (·.idleThresholdHours)).getD 24

/-- `data.stats || { tabsTidiedThisWeek: 0, ramSavedEstimate: 0 }`. -/
def World.statsOf (w : World) : Stats :=
  w.stats.getD ⟨0, 0⟩

/-- Whether `chrome.tabs.get(id)` would succeed. -/
def World.tabExists (w : World) (id : Nat) : Bool :=
  w.tabs.any (fun t => t.id = id)

/-- Source `isTabSnoozed(tabId)`: an alarm named `snooze-<tabId>` exists. -/
def isTabSnoozed (w : World) (tabId : Nat) : Bool :=
  w.alarms.contains (SNOOZE_ALARM_HEAD ++ toString tabId)

-- ─── chrome.* provider operations ───────────────────────────────

/-- `chrome.tabs.remove(id)`: the tab disappears from the provider; the
callers catch the failure when the tab is already gone. -/
def chromeTabsRemove (w : World) (id : Nat) : World :=
  { w with tabs := w.tabs.filter (fun t => t.id ≠ id) }

/-- `chrome.tabs.group({ tabIds })`: places the tabs into a fresh group and
returns its id. -/
def chromeTabsGroupNew (w : World) (tabIds : List Nat) : World × Int :=
  ({ w with
      tabs := w.tabs.map (fun t =>
        if tabIds.contains t.id then { t with groupId := w.nextGroupId } else t),
      nextGroupId := w.nextGroupId + 1 },
   w.nextGroupId)

/-- `chrome.tabs.group({ tabIds, groupId })`: moves the tabs into an
existing group. -/
def chromeTabsGroupExisting (w : World) (tabIds : List Nat) (gid : Int) : World :=
  { w with
      tabs := w.tabs.map (fun t =>
        if tabIds.contains t.id then { t with groupId := gid } else t) }

/-- `chrome.tabGroups.update(gid, { title, color, collapsed })`, recording
the group metadata (creating the record for a fresh group id). -/
def chromeTabGroupsUpdate (w : World) (gid : Int) (title color : String)
    (collapsed : Bool) : World :=
  if w.groups.any (fun g => g.id = gid) then
    { w with groups := w.groups.map (fun g =>
        if g.id = gid then { g with title := title, color := color, collapsed := collapsed }
        else g) }
  else
    { w with groups := w.groups ++ [⟨gid, title, color, collapsed⟩] }

/-- `chrome.alarms.create(name, ...)`: the named alarm becomes pending
(re-creating an existing alarm overwrites it). -/
def chromeAlarmsCreate (w : World) (name : String) : World :=
  if w.alarms.contains name then w else { w with alarms := w.alarms ++ [name] }

/-- Source `findExistingGroup(domain)`: first group whose title is the
uppercased domain, if any. -/
def findExistingGroup (w : World) (domain : String) : Option TabGroup :=
  (w.groups.filter (fun g => g.title = jsToUpper domain)).head?

-- ─── Dead End Sweeper ───────────────────────────────────────────

/-- Source `isTabStuck(tab)`: not finished loading and last accessed
longer than one hour ago (`tab.lastAccessed || Date.now()`). -/
def isTabStuck (w : World) (tab : Tab) : Bool :=
  if tab.status = "complete" then false
  else decide (w.now - jsOrTime tab.lastAccessed w.now > STUCK_TAB_THRESHOLD_MS)

/-- Result record of the error detectors. -/
structure ErrorResult where
  isError : Bool
  reason : String
deriving Repr, DecidableEq

/-- Source `checkTitleForErrors(title)`.  The regex engine is modelled by
the oracle `w.titleError`, which returns the matched fragment of the first
`TITLE_ERROR_PATTERNS` entry that matches the title, or `none`; the
properties proved below hold for every oracle. -/
def checkTitleForErrors (w : World) (title : String) : ErrorResult :=
  match w.titleError title with
  | some m => ⟨true, "Title match: " ++ m⟩
  | none => ⟨false, ""⟩

/-- Source `detectTabError(tab)`: title pattern match, then the
stuck-loading heuristic. -/
def detectTabError (w : World) (tab : Tab) : ErrorResult :=
  let titleResult := checkTitleForErrors w (jsOr tab.title "")
  if titleResult.isError then titleResult
  else if isTabStuck w tab then ⟨true, "Tab stuck loading for > 1 hour"⟩
  else ⟨false, ""⟩

/-- The `swept[]` record pushed by `sweepTab`. -/
def mkSweptEntry (w : World) (tab : Tab) (reason : String) : SweptEntry :=
  ⟨tab.url, jsOr tab.title "Untitled", w.now, reason⟩

/-- `stats.tabsTidiedThisWeek += 1; stats.ramSavedEstimate += ram`. -/
def bumpStats (s : Stats) (ram : Nat) : Stats :=
  ⟨s.tabsTidiedThisWeek + 1, s.ramSavedEstimate + ram⟩

/-- Source `sweepTab(tab, reason)`: append the swept entry and the updated
stats to storage, then (and only then) issue the tab close. -/
def sweepTab (w : World) (tab : Tab) (reason : String) : World × List Event :=
  let entry := mkSweptEntry w tab reason
  let stats := bumpStats w.statsOf 50
  let w₁ := { w with swept := w.swept ++ [entry], stats := some stats }
  (chromeTabsRemove w₁ tab.id,
   [Event.writeSweptStats entry stats, Event.removeTab tab.id])

/-- `updateSweepBadge(count)`: badge text plus the badge-clear alarm. -/
def updateSweepBadge (w : World) (count : Nat) : World × List Event :=
  (chromeAlarmsCreate w BADGE_CLEAR_ALARM,
   [Event.setBadge count, Event.createAlarm BADGE_CLEAR_ALARM])

/-- Loop body of `runDeadEndSweep` for one tab of the snapshot. -/
def sweepStep (w : World) (tab : Tab) : World × Bool × List Event :=
  if tab.pinned then (w, false, [])
  else if tab.audible then (w, false, [])
  else
    match getRootDomain tab.url with
    | none =>
        if isTabStuck w tab then
          let r := sweepTab w tab "Stuck loading (no URL, > 1 hour)"
          (r.1, true, r.2)
        else (w, false, [])
    | some domain =>
        if isDomainWhitelisted w domain then (w, false, [])
        else
          let errorResult := detectTabError w tab
          if errorResult.isError then
            let r := sweepTab w tab errorResult.reason
            (r.1, true, r.2)
          else (w, false, [])

/-- The `for` loop of `runDeadEndSweep` over the tab snapshot, counting
the swept tabs. -/
def sweepLoop : World → Nat → List Tab → World × Nat × List Event
  | w, count, [] => (w, count, [])
  | w, count, tab :: rest =>
      let s := sweepStep w tab
      let r := sweepLoop s.1 (if s.2.1 then count + 1 else count) rest
      (r.1, r.2.1, s.2.2 ++ r.2.2)

/-- Source `runDeadEndSweep()` (the `sweepInProgress` re-entrancy guard
concerns overlapping runs and is outside this single-run model). -/
def runDeadEndSweep (w : World) : World × List Event :=
  let l := sweepLoop w 0 w.tabs
  if l.2.1 > 0 then
    let r := updateSweepBadge l.1 l.2.1
    (r.1, l.2.2 ++ r.2)
  else (l.1, l.2.2)

-- ─── Graceful Exit (archival) ───────────────────────────────────

/-- The prompt built by `summarizeTab`. -/
def summarizePrompt (tab : Tab) : String :=
  "Summarize this page in 3 bullet points (total under 100 words), preserving key facts, numbers, dates, action items, and the user\x27s likely intent for visiting.\n\nTitle: "
    ++ jsOr tab.title "Untitled" ++ "\nURL: " ++ tab.url

/-- Source `summarizeTab(tab)`: AI summary when `promptAi` returns a truthy
result, otherwise the deterministic fallback from the raw title; returns
`(summary, summaryType)`. -/
def summarizeTab (w : World) (tab : Tab) : String × String :=
  match w.ai (summarizePrompt tab) with
  | some aiResult =>
      if aiResult = "" then (jsOr tab.title "Untitled", "fallback")
      else (aiResult, "ai")
  | none => (jsOr tab.title "Untitled", "fallback")

/-- `getRootDomain(tab.url) || 'unknown'`. -/
def archiveDomain (tab : Tab) : String :=
  match getRootDomain tab.url with
  | some d => if d = "" then "unknown" else d
  | none => "unknown"

/-- The `archived[]` record pushed by `archiveTab`. -/
def mkArchivedEntry (w : World) (tab : Tab) : ArchivedEntry :=
  ⟨tab.url, jsOr tab.title "Untitled", jsOr tab.favIconUrl "", w.now,
   (summarizeTab w tab).1, (summarizeTab w tab).2, archiveDomain tab⟩

/-- Source `sendArchivalNotification(pageTitle)`: the notification message
(titles over 50 characters are truncated to 47 plus an ellipsis). -/
def sendArchivalNotificationMsg (pageTitle : String) : String :=
  let truncated :=
    if pageTitle.data.length > 50 then String.mk (pageTitle.data.take 47) ++ "..."
    else pageTitle
  "Moved \"" ++ truncated ++ "\" to your Sunday Digest. Summary saved."

/-- Source `archiveTab(tab)`: verify the tab still exists, summarize,
persist the archived entry and stats, then close the tab and notify. -/
def archiveTab (w : World) (tab : Tab) : World × List Event :=
  if ¬ w.tabExists tab.id then (w, [])
  else
    let entry := mkArchivedEntry w tab
    let stats := bumpStats w.statsOf RAM_PER_TAB_MB
    let w₁ := { w with archived := w.archived ++ [entry], stats := some stats }
    (chromeTabsRemove w₁ tab.id,
     [Event.writeArchivedStats entry stats, Event.removeTab tab.id,
      Event.notify (sendArchivalNotificationMsg (jsOr tab.title "Untitled"))])

/-- The guard chain shared verbatim by `runIdleTabCheck` and
`handleNuclearArchive`: pinned, audible, in-flight, non-groupable,
whitelisted, snoozed, and not yet idle past the threshold all skip. -/
def archivalSelected (w : World) (thresholdMs : Int) (tab : Tab) : Bool :=
  !tab.pinned && !tab.audible && !(w.archivingTabs.contains tab.id) &&
    (match getRootDomain tab.url with
     | none => false
     | some domain =>
         !(isDomainWhitelisted w domain) && !(isTabSnoozed w tab.id) &&
           decide (w.now - jsOrTime tab.lastAccessed w.now ≥ thresholdMs))

/-- Loop body shared by `runIdleTabCheck` and `handleNuclearArchive`: on a
selected tab, add it to the in-flight set, archive, and remove it from the
in-flight set on the `finally` path. -/
def archivalStep (w : World) (thresholdMs : Int) (tab : Tab) :
    World × Bool × List Event :=
  if archivalSelected w thresholdMs tab then
    let w₁ := { w with archivingTabs :=
        if w.archivingTabs.contains tab.id then w.archivingTabs
        else w.archivingTabs ++ [tab.id] }
    let r := archiveTab w₁ tab
    ({ r.1 with archivingTabs := r.1.archivingTabs.filter (fun i => i ≠ tab.id) },
     true, r.2)
  else (w, false, [])

/-- The archival `for` loop over the tab snapshot, counting processed tabs
(`handleNuclearArchive` reads the count, `runIdleTabCheck` ignores it). -/
def archivalLoop : World → Int → Nat → List Tab → World × Nat × List Event
  | w, _, count, [] => (w, count, [])
  | w, thresholdMs, count, tab :: rest =>
      let s := archivalStep w thresholdMs tab
      let r := archivalLoop s.1 thresholdMs (if s.2.1 then count + 1 else count) rest
      (r.1, r.2.1, s.2.2 ++ r.2.2)

/-- Source `runIdleTabCheck()`. -/
def runIdleTabCheck (w : World) : World × List Event :=
  let thresholdMs := w.idleThresholdHoursOf * 60 * 60 * 1000
  let r := archivalLoop w thresholdMs 0 w.tabs
  (r.1, r.2.2)

/-- Source `handleNuclearArchive()`: fixed 4-hour threshold, returns the
count of archived tabs, and signals the count badge when it is nonzero. -/
def handleNuclearArchive (w : World) : World × Nat × List Event :=
  let thresholdMs := NUCLEAR_IDLE_HOURS * 60 * 60 * 1000
  let l := archivalLoop w thresholdMs 0 w.tabs
  if l.2.1 > 0 then
    let r := updateSweepBadge l.1 l.2.1
    (r.1, l.2.1, l.2.2 ++ r.2)
  else (l.1, l.2.1, l.2.2)

-- ─── Clean Slate Automator (domain auto-grouping) ───────────────

/-- `chrome.tabs.query({ pinned: false })` filtered to the trigger domain:
`allTabs.filter((t) => getRootDomain(t.url) === domain)`. -/
def sameDomainTabs (w : World) (domain : String) : List Tab :=
  (w.tabs.filter (fun t => !t.pinned)).filter
    (fun t => getRootDomain t.url = some domain)

/-- Source `evaluateAutoGroup(triggerTab)`: skip pinned triggers,
non-groupable URLs and whitelisted domains; once the same-domain non-pinned
tab count reaches the threshold, move the tabs into the existing group for
the domain, or create a new group with the uppercased title, the
deterministic color and `collapsed: true`. -/
def evaluateAutoGroup (w : World) (triggerTab : Tab) : World × List Event :=
  if triggerTab.pinned then (w, [])
  else
    match getRootDomain triggerTab.url with
    | none => (w, [])
    | some domain =>
        if isDomainWhitelisted w domain then (w, [])
        else
          let threshold := w.groupThresholdOf
          let matching := sameDomainTabs w domain
          if matching.length < threshold then (w, [])
          else
            match findExistingGroup w domain with
            | some existingGroup =>
                let ungroupedIds := (matching.filter (fun t =>
                    t.groupId = -1 ∨ t.groupId ≠ existingGroup.id)).map (·.id)
                if ungroupedIds.length > 0 then
                  (chromeTabsGroupExisting w ungroupedIds existingGroup.id,
                   [Event.groupTabs ungroupedIds existingGroup.id])
                else (w, [])
            | none =>
                let tabIds := matching.map (·.id)
                let r := chromeTabsGroupNew w tabIds
                let colorIndex := domainToColorIndex domain
                let color := GROUP_COLORS.getD colorIndex ""
                (chromeTabGroupsUpdate r.1 r.2 (jsToUpper domain) color true,
                 [Event.groupTabs tabIds r.2,
                  Event.updateGroup r.2 (jsToUpper domain) color true])

-- ─── Topic Grouping (AI clustering) ─────────────────────────────

/-- JS truthiness of an optional string (`undefined` and `""` falsy). -/
def jsTruthyStr : Option String → Bool
  | none => false
  | some s => s ≠ ""

/-- The candidate filter of `runTopicGrouping`: ungrouped, non-audible,
groupable, non-whitelisted tabs of the `{ pinned: false }` query. -/
def topicCandidates (w : World) : List Tab :=
  (w.tabs.filter (fun t => !t.pinned)).filter (fun t =>
    t.groupId = -1 && !t.audible &&
      (match getRootDomain t.url with
       | none => false
       | some d => !isDomainWhitelisted w d))

/-- The `[i] title\nurl` lines of the topic-grouping prompt. -/
def topicSummaries (candidates : List Tab) : String :=
  String.intercalate "\n\n"
    ((candidates.enum).map (fun p =>
      "[" ++ toString p.1 ++ "] " ++ jsOr p.2.title "Untitled" ++ "\n" ++ p.2.url))

/-- The batched prompt of `runTopicGrouping`. -/
def topicPrompt (candidates : List Tab) : String :=
  "You are a tab organizer. Group these browser tabs by topic. Only create a cluster if 2 or more tabs share a clear theme. Leave unrelated tabs unclustered. Return ONLY valid JSON, no markdown:\n\x7b\"clusters\":[\x7b\"title\":\"Short Topic Name\",\"indices\":[0,1]\x7d]\x7d\n\n"
    ++ topicSummaries candidates

/-- The per-id re-verification of `runTopicGrouping`: the tab must still
exist and still be ungrouped. -/
def stillUngrouped (w : World) (id : Nat) : Bool :=
  match w.tabs.find? (fun t => t.id = id) with
  | some t => t.groupId = -1
  | none => false

/-- The `tabIds` computation of the cluster loop: keep in-range indices
and map them to candidate tab ids. -/
def clusterTabIds (candidates : List Tab) (indices : List Int) : List Nat :=
  (indices.filter (fun i =>
      decide (0 ≤ i) && decide (i < (candidates.length : Int)))).filterMap
    (fun i => (candidates.get? i.toNat).map (·.id))

/-- The body of the cluster loop of `runTopicGrouping` for one cluster:
discard clusters with a falsy title, a missing indices array or fewer than
two members; map in-range indices to candidate tab ids; re-verify the ids
against the live tab set; commit only a surviving subset of at least two. -/
def processCluster (w : World) (candidates : List Tab) (cluster : RawCluster) :
    World × List Event :=
  if ¬ jsTruthyStr cluster.title then (w, [])
  else
    match cluster.indices with
    | none => (w, [])
    | some indices =>
        if indices.length < 2 then (w, [])
        else
          let tabIds := clusterTabIds candidates indices
          if tabIds.length < 2 then (w, [])
          else
            let validIds := tabIds.filter (stillUngrouped w)
            if validIds.length < 2 then (w, [])
            else
              let title := (cluster.title).getD ""
              let r := chromeTabsGroupNew w validIds
              let colorIndex := domainToColorIndex (jsToLower title)
              let color := GROUP_COLORS.getD colorIndex ""
              (chromeTabGroupsUpdate r.1 r.2 (jsToUpper title) color true,
               [Event.groupTabs validIds r.2,
                Event.updateGroup r.2 (jsToUpper title) color true])

/-- The cluster `for` loop of `runTopicGrouping`. -/
def clustersLoop : World → List Tab → List RawCluster → World × List Event
  | w, _, [] => (w, [])
  | w, candidates, c :: rest =>
      let s := processCluster w candidates c
      let r := clustersLoop s.1 candidates rest
      (r.1, s.2 ++ r.2)

/-- Source `runTopicGrouping({ manual })`: skip when the feature is off and
the run is not manual; abort with fewer than `TOPIC_GROUPING_MIN_TABS`
candidates; abort on any AI/JSON failure; otherwise process the decoded
clusters. -/
def runTopicGrouping (w : World) (manual : Bool) : World × List Event :=
  if ¬ manual ∧ ¬ ((w.config.map (·.enableTopicGrouping)).getD false) then (w, [])
  else
    let candidates := topicCandidates w
    if candidates.length < TOPIC_GROUPING_MIN_TABS then (w, [])
    else
      match w.aiClusters (topicPrompt candidates) with
      | AiParse.clusters cs => clustersLoop w candidates cs
      | _ => (w, [])

-- ─── Concrete base world for witnesses and counterexamples ──────

/-- A minimal world: no tabs, defaults everywhere, all oracles failing. -/
def emptyWorld : World where
  tabs := []
  groups := []
  config := none
  archived := []
  swept := []
  stats := none
  archivingTabs := []
  alarms := []
  now := 0
  nextGroupId := 1
  ai := fun _ => none
  aiClusters := fun _ => AiParse.noResponse
  titleError := fun _ => none

-- ─── C9 ─────────────────────────────────────────────────────────

/-- C9: color assignment is deterministic and total — `domainToColorIndex`
is a pure function (equal keys give equal values) and its value is always a
valid index into the fixed 9-entry `GROUP_COLORS` palette. -/
theorem C9_color_deterministic_total :
    (∀ d₁ d₂ : String, d₁ = d₂ → domainToColorIndex d₁ = domainToColorIndex d₂) ∧
    (∀ d : String, domainToColorIndex d < GROUP_COLORS.length) ∧
    GROUP_COLORS.length = 9 := by
  refine ⟨fun d₁ d₂ h => by rw [h], fun d => ?_, rfl⟩
  unfold domainToColorIndex
  exact Nat.mod_lt _ (by decide)

/-- Witness for C9 at the concrete key `example.com`. -/
theorem C9_color_witness :
    domainToColorIndex "example.com" = domainToColorIndex "example.com" ∧
    domainToColorIndex "example.com" < GROUP_COLORS.length :=
  ⟨C9_color_deterministic_total.1 "example.com" "example.com" rfl,
   C9_color_deterministic_total.2.1 "example.com"⟩

-- ─── C3 ─────────────────────────────────────────────────────────

/-- Tab used by the C3 counterexample. -/
def C3tab : Tab :=
  ⟨1, "https://example.com/a", some "Example", none, false, false,
   some 1000, "complete", -1⟩

/-- World whose AI oracle answers every prompt with the empty string (a
non-null `promptAi` response). -/
def C3world : World := { emptyWorld with ai := fun _ => some "" }

/-- C3 counterexample: when `promptAi` returns the empty string — a
response, not null — `summarizeTab` still reports `summaryType =
"fallback"`, because the source tests `if (aiResult)` and the empty string
is falsy; so "`ai` if and only if the AI call returned a response" fails. -/
theorem C3_empty_response_counterexample :
    C3world.ai (summarizePrompt C3tab) = some "" ∧
    (summarizeTab C3world C3tab).2 = "fallback" := by
  exact ⟨rfl, by decide⟩

/-- C3 (amended): on a null AI response `summarizeTab` returns the
deterministic fallback built from the raw title with provenance
`fallback`; provenance is `ai` exactly when `promptAi` returned a truthy
(nonempty) response; the result is always one of the two provenances (the
function is total — no exception path exists). -/
theorem C3_summarize_fallback (w : World) (tab : Tab) :
    (w.ai (summarizePrompt tab) = none →
      summarizeTab w tab = (jsOr tab.title "Untitled", "fallback")) ∧
    ((summarizeTab w tab).2 = "ai" ↔
      ∃ r, w.ai (summarizePrompt tab) = some r ∧ r ≠ "") ∧
    ((summarizeTab w tab).2 = "ai" ∨ (summarizeTab w tab).2 = "fallback") := by
  unfold summarizeTab
  cases h : w.ai (summarizePrompt tab) with
  | none => simp [h]
  | some r =>
      by_cases hr : r = ""
      · subst hr
        simp [h]
      · simp [h, hr]

/-- Witness for C3 at a concrete world whose AI oracle fails. -/
theorem C3_summarize_fallback_witness :
    summarizeTab emptyWorld C3tab = (jsOr C3tab.title "Untitled", "fallback") :=
  (C3_summarize_fallback emptyWorld C3tab).1 rfl

-- ─── C5 ─────────────────────────────────────────────────────────

/-- C5: for http(s) URLs `getRootDomain` computes exactly the spec's
last-two-labels rule with the multi-part-suffix exception (after stripping
a leading `www.`); every non-http(s) scheme yields `null`; and the three
scenario hosts `a.example.com`, `b.example.com`, `example.com` all map to
the grouping key `example.com`. -/
theorem C5_root_domain :
    (∀ hostname, getRegistrableDomain hostname = specRegistrableDomain hostname) ∧
    (∀ p : ParsedUrl, p.protocol = "http:" ∨ p.protocol = "https:" →
      getRootDomainP (some p) = some (specRegistrableDomain p.hostname)) ∧
    (∀ p : ParsedUrl, p.protocol ≠ "http:" → p.protocol ≠ "https:" →
      getRootDomainP (some p) = none) ∧
    getRootDomainP none = none ∧
    getRootDomain "https://a.example.com/doc" = some "example.com" ∧
    getRootDomain "https://b.example.com/" = some "example.com" ∧
    getRootDomain "https://example.com/" = some "example.com" ∧
    getRootDomain "https://www.bbc.co.uk/news" = some "bbc.co.uk" ∧
    getRootDomain "chrome://settings" = none := by
  refine ⟨getRegistrableDomain_eq_spec, ?_, ?_, rfl, by decide, by decide,
    by decide, by decide, by decide⟩
  · intro p hp
    have hcond : ¬ (p.protocol ≠ "http:" ∧ p.protocol ≠ "https:") := by
      rcases hp with h | h <;> simp [h]
    show (if p.protocol ≠ "http:" ∧ p.protocol ≠ "https:" then none
      else some (getRegistrableDomain p.hostname)) = _
    rw [if_neg hcond, getRegistrableDomain_eq_spec]
  · intro p h1 h2
    show (if p.protocol ≠ "http:" ∧ p.protocol ≠ "https:" then none
      else some (getRegistrableDomain p.hostname)) = none
    rw [if_pos ⟨h1, h2⟩]

/-- Witness for C5 at a concrete parsed http URL. -/
theorem C5_root_domain_witness :
    getRootDomainP (some ⟨"http:", "docs.google.com"⟩) =
      some (specRegistrableDomain "docs.google.com") :=
  C5_root_domain.2.1 ⟨"http:", "docs.google.com"⟩ (Or.inl rfl)

-- ─── C2: persist-before-destroy ordering ────────────────────────

/-- Traces in which every destructive `removeTab` is immediately preceded
by the persistent-store write of its record: a trace is a sequence of
complete sweep blocks, archival blocks and badge blocks. -/
inductive PersistThenClose : List Event → Prop where
  | nil : PersistThenClose []
  | sweep (e : SweptEntry) (s : Stats) (id : Nat) (rest : List Event) :
      PersistThenClose rest →
      PersistThenClose (Event.writeSweptStats e s :: Event.removeTab id :: rest)
  | archive (e : ArchivedEntry) (s : Stats) (id : Nat) (m : String)
      (rest : List Event) : PersistThenClose rest →
      PersistThenClose (Event.writeArchivedStats e s :: Event.removeTab id ::
        Event.notify m :: rest)
  | badge (n : Nat) (a : String) (rest : List Event) : PersistThenClose rest →
      PersistThenClose (Event.setBadge n :: Event.createAlarm a :: rest)

theorem PersistThenClose.append {a b : List Event}
    (ha : PersistThenClose a) (hb : PersistThenClose b) :
    PersistThenClose (a ++ b) := by
  induction ha with
  | nil => simpa using hb
  | sweep e s id rest _ ih => exact .sweep e s id _ ih
  | archive e s id m rest _ ih => exact .archive e s id m _ ih
  | badge n al rest _ ih => exact .badge n al _ ih

/-- In a block-structured trace, the event directly before every
`removeTab` is a persistent-store write (swept or archived). -/
theorem PersistThenClose.write_before_close {tr : List Event}
    (h : PersistThenClose tr) :
    ∀ pre suf id, tr = pre ++ Event.removeTab id :: suf →
      ∃ pre', (∃ e s, pre = pre' ++ [Event.writeSweptStats e s]) ∨
        (∃ e s, pre = pre' ++ [Event.writeArchivedStats e s]) := by
  induction h with
  | nil =>
      intro pre suf id hEq
      exact absurd hEq (by cases pre <;> simp)
  | sweep e s id₀ rest _ ih =>
      intro pre suf id hEq
      match pre, hEq with
      | [], hEq => exact absurd hEq (by simp)
      | [a], hEq =>
          obtain ⟨ha, -⟩ := List.cons_eq_cons.mp hEq
          exact ⟨[], Or.inl ⟨e, s, by simp [← ha]⟩⟩
      | a :: b :: pre₂, hEq =>
          obtain ⟨ha, hEq⟩ := List.cons_eq_cons.mp hEq
          obtain ⟨hb, hEq⟩ := List.cons_eq_cons.mp hEq
          obtain ⟨pre', hdisj⟩ := ih pre₂ suf id hEq
          refine ⟨a :: b :: pre', ?_⟩
          rcases hdisj with ⟨e', s', hp⟩ | ⟨e', s', hp⟩
          · exact Or.inl ⟨e', s', by simp [hp]⟩
          · exact Or.inr ⟨e', s', by simp [hp]⟩
  | archive e s id₀ m rest _ ih =>
      intro pre suf id hEq
      match pre, hEq with
      | [], hEq => exact absurd hEq (by simp)
      | [a], hEq =>
          obtain ⟨ha, -⟩ := List.cons_eq_cons.mp hEq
          exact ⟨[], Or.inr ⟨e, s, by simp [← ha]⟩⟩
      | [a, b], hEq =>
          obtain ⟨-, hEq⟩ := List.cons_eq_cons.mp hEq
          obtain ⟨-, hEq⟩ := List.cons_eq_cons.mp hEq
          exact absurd (List.cons_eq_cons.mp hEq).1 (by simp)
      | a :: b :: c :: pre₃, hEq =>
          obtain ⟨ha, hEq⟩ := List.cons_eq_cons.mp hEq
          obtain ⟨hb, hEq⟩ := List.cons_eq_cons.mp hEq
          obtain ⟨hc, hEq⟩ := List.cons_eq_cons.mp hEq
          obtain ⟨pre', hdisj⟩ := ih pre₃ suf id hEq
          refine ⟨a :: b :: c :: pre', ?_⟩
          rcases hdisj with ⟨e', s', hp⟩ | ⟨e', s', hp⟩
          · exact Or.inl ⟨e', s', by simp [hp]⟩
          · exact Or.inr ⟨e', s', by simp [hp]⟩
  | badge n al rest _ ih =>
      intro pre suf id hEq
      match pre, hEq with
      | [], hEq => exact absurd hEq (by simp)
      | [a], hEq =>
          obtain ⟨-, hEq⟩ := List.cons_eq_cons.mp hEq
          exact absurd (List.cons_eq_cons.mp hEq).1 (by simp)
      | a :: b :: pre₂, hEq =>
          obtain ⟨ha, hEq⟩ := List.cons_eq_cons.mp hEq
          obtain ⟨hb, hEq⟩ := List.cons_eq_cons.mp hEq
          obtain ⟨pre', hdisj⟩ := ih pre₂ suf id hEq
          refine ⟨a :: b :: pre', ?_⟩
          rcases hdisj with ⟨e', s', hp⟩ | ⟨e', s', hp⟩
          · exact Or.inl ⟨e', s', by simp [hp]⟩
          · exact Or.inr ⟨e', s', by simp [hp]⟩

theorem sweepTab_trace (w : World) (tab : Tab) (reason : String) :
    (sweepTab w tab reason).2 =
      [Event.writeSweptStats (mkSweptEntry w tab reason) (bumpStats w.statsOf 50),
       Event.removeTab tab.id] := rfl

theorem archiveTab_trace (w : World) (tab : Tab) :
    (archiveTab w tab).2 = [] ∨
    (archiveTab w tab).2 =
      [Event.writeArchivedStats (mkArchivedEntry w tab)
         (bumpStats w.statsOf RAM_PER_TAB_MB),
       Event.removeTab tab.id,
       Event.notify (sendArchivalNotificationMsg (jsOr tab.title "Untitled"))] := by
  unfold archiveTab
  by_cases h : w.tabExists tab.id
  · exact Or.inr (by simp [h])
  · exact Or.inl (by simp [h])

theorem persistThenClose_sweepTab (w : World) (tab : Tab) (reason : String) :
    PersistThenClose (sweepTab w tab reason).2 := by
  rw [sweepTab_trace]
  exact .sweep _ _ _ [] .nil

theorem persistThenClose_archiveTab (w : World) (tab : Tab) :
    PersistThenClose (archiveTab w tab).2 := by
  rcases archiveTab_trace w tab with h | h <;> rw [h]
  · exact .nil
  · exact .archive _ _ _ _ [] .nil

theorem persistThenClose_sweepStep (w : World) (tab : Tab) :
    PersistThenClose (sweepStep w tab).2.2 := by
  unfold sweepStep
  split
  · exact .nil
  split
  · exact .nil
  split
  · split
    · exact persistThenClose_sweepTab _ _ _
    · exact .nil
  · split
    · exact .nil
    · dsimp only
      split
      · exact persistThenClose_sweepTab _ _ _
      · exact .nil

theorem persistThenClose_sweepLoop (ts : List Tab) (w : World) (c : Nat) :
    PersistThenClose (sweepLoop w c ts).2.2 := by
  induction ts generalizing w c with
  | nil => exact .nil
  | cons t rest ih =>
      exact (persistThenClose_sweepStep w t).append (ih _ _)

theorem persistThenClose_archivalStep (w : World) (thr : Int) (tab : Tab) :
    PersistThenClose (archivalStep w thr tab).2.2 := by
  unfold archivalStep
  split
  · exact persistThenClose_archiveTab _ _
  · exact .nil

theorem persistThenClose_archivalLoop (ts : List Tab) (w : World) (thr : Int)
    (c : Nat) : PersistThenClose (archivalLoop w thr c ts).2.2 := by
  induction ts generalizing w c with
  | nil => exact .nil
  | cons t rest ih =>
      exact (persistThenClose_archivalStep w thr t).append (ih _ _)

/-- C2: persist-before-destroy ordering.  `sweepTab` writes the swept
entry and bumped stats and only then issues the close; `archiveTab` either
does nothing (tab already gone) or writes the archived entry and bumped
stats before issuing the close; all three destructive runs produce
block-structured traces in which the event immediately preceding every
`removeTab` is the corresponding persistent-store write. -/
theorem C2_persist_before_close :
    (∀ w tab reason, (sweepTab w tab reason).2 =
      [Event.writeSweptStats (mkSweptEntry w tab reason) (bumpStats w.statsOf 50),
       Event.removeTab tab.id]) ∧
    (∀ w tab, (archiveTab w tab).2 = [] ∨
      (archiveTab w tab).2 =
        [Event.writeArchivedStats (mkArchivedEntry w tab)
           (bumpStats w.statsOf RAM_PER_TAB_MB),
         Event.removeTab tab.id,
         Event.notify (sendArchivalNotificationMsg (jsOr tab.title "Untitled"))]) ∧
    (∀ w, PersistThenClose (runDeadEndSweep w).2) ∧
    (∀ w, PersistThenClose (runIdleTabCheck w).2) ∧
    (∀ w, PersistThenClose (handleNuclearArchive w).2.2) ∧
    (∀ tr, PersistThenClose tr → ∀ pre suf id,
      tr = pre ++ Event.removeTab id :: suf →
      ∃ pre', (∃ e s, pre = pre' ++ [Event.writeSweptStats e s]) ∨
        (∃ e s, pre = pre' ++ [Event.writeArchivedStats e s])) := by
  refine ⟨sweepTab_trace, archiveTab_trace, ?_, ?_, ?_,
    fun tr h => h.write_before_close⟩
  · intro w
    have hloop := persistThenClose_sweepLoop w.tabs w 0
    unfold runDeadEndSweep
    rcases hr : sweepLoop w 0 w.tabs with ⟨w₁, count, evs⟩
    rw [hr] at hloop
    simp only [hr]
    split
    · exact hloop.append (.badge _ _ [] .nil)
    · exact hloop
  · intro w
    exact persistThenClose_archivalLoop w.tabs w
      (w.idleThresholdHoursOf * 60 * 60 * 1000) 0
  · intro w
    have hloop := persistThenClose_archivalLoop w.tabs w
      (NUCLEAR_IDLE_HOURS * 60 * 60 * 1000) 0
    unfold handleNuclearArchive
    rcases hr : archivalLoop w (NUCLEAR_IDLE_HOURS * 60 * 60 * 1000) 0 w.tabs
      with ⟨w₁, count, evs⟩
    rw [hr] at hloop
    simp only [hr]
    split
    · exact hloop.append (.badge _ _ [] .nil)
    · exact hloop

/-- Concrete swept tab for the C2 witness. -/
def C2tab : Tab :=
  ⟨7, "https://x.com/", some "T", none, false, false, some 10, "complete", -1⟩

/-- Witness for C2: in the concrete sweep trace of `C2tab` the prefix
before the close is exactly the persistent write. -/
theorem C2_persist_before_close_witness :
    ∃ pre', (∃ e s, [Event.writeSweptStats (mkSweptEntry emptyWorld C2tab "r")
        (bumpStats emptyWorld.statsOf 50)] = pre' ++ [Event.writeSweptStats e s]) ∨
      (∃ e s, [Event.writeSweptStats (mkSweptEntry emptyWorld C2tab "r")
        (bumpStats emptyWorld.statsOf 50)] = pre' ++ [Event.writeArchivedStats e s]) :=
  C2_persist_before_close.2.2.2.2.2 (sweepTab emptyWorld C2tab "r").2
    (persistThenClose_sweepTab emptyWorld C2tab "r")
    [Event.writeSweptStats (mkSweptEntry emptyWorld C2tab "r")
      (bumpStats emptyWorld.statsOf 50)] [] C2tab.id rfl

-- ─── C1: protected-tab immunity ─────────────────────────────────

/-- An unpinned, audible tab at example.com (the C1 failing input). -/
def C1tabAudible : Tab :=
  ⟨1, "https://example.com/a", some "Music", none, false, true,
   some 0, "complete", -1⟩

/-- Second same-domain tab. -/
def C1tab2 : Tab :=
  ⟨2, "https://example.com/b", some "B", none, false, false,
   some 0, "complete", -1⟩

/-- Third same-domain tab. -/
def C1tab3 : Tab :=
  ⟨3, "https://example.com/c", some "C", none, false, false,
   some 0, "complete", -1⟩

/-- Three unpinned example.com tabs, one audible; default config. -/
def C1world : World :=
  { emptyWorld with
      tabs := [C1tabAudible, C1tab2, C1tab3], nextGroupId := 100 }

/-- C1 failing input: `evaluateAutoGroup` guards only on `pinned`, so an
audible (hence protected) tab is included in the created group — the
automated grouping action touches a protected tab, contradicting the
safety-net invariant stated by the spec and by the repository's own plan,
instructions and test headers. -/
theorem C1_audible_tab_grouped_bug :
    C1tabAudible.audible = true ∧
    (evaluateAutoGroup C1world C1tabAudible).1.tabs.map (fun t => t.groupId) =
      [100, 100, 100] ∧
    (evaluateAutoGroup C1world C1tabAudible).2 =
      [Event.groupTabs [1, 2, 3] 100,
       Event.updateGroup 100 "EXAMPLE.COM"
         (GROUP_COLORS.getD (domainToColorIndex "example.com") "") true] := by
  decide

-- ─── C7: group creation behaviour ───────────────────────────────

/-- First example.org tab. -/
def C7tabA : Tab :=
  ⟨11, "https://example.org/a", some "A", none, false, false,
   some 0, "complete", -1⟩

/-- Second example.org tab. -/
def C7tabB : Tab :=
  ⟨12, "https://example.org/b", some "B", none, false, false,
   some 0, "complete", -1⟩

/-- Third example.org tab. -/
def C7tabC : Tab :=
  ⟨13, "https://example.org/c", some "C", none, false, false,
   some 0, "complete", -1⟩

/-- Three ungrouped example.org tabs, no existing groups. -/
def C7world : World :=
  { emptyWorld with
      tabs := [C7tabA, C7tabB, C7tabC], nextGroupId := 200 }

/-- C7 counterexample: with no existing group and the threshold reached,
`evaluateAutoGroup` creates the new group with `collapsed: true` — the
group is *not* left expanded, refuting the claim as stated. -/
theorem C7_new_group_collapsed_counterexample :
    findExistingGroup C7world "example.org" = none ∧
    (evaluateAutoGroup C7world C7tabA).1.groups.map (fun g => g.collapsed) =
      [true] := by
  decide

/-- C7 (amended): when `evaluateAutoGroup` finds no existing group for the
key and the same-key non-pinned tab count has reached the threshold, it
creates one new group containing all matching tabs, sets its title to the
uppercased key and its deterministic palette color, and creates it already
collapsed (`collapsed: true`); no separate collapse timer is involved in
this version. -/
theorem C7_new_group_creation (w : World) (trigger : Tab) (domain : String)
    (hpin : trigger.pinned = false)
    (hdom : getRootDomain trigger.url = some domain)
    (hwl : isDomainWhitelisted w domain = false)
    (hthr : ¬ (sameDomainTabs w domain).length < w.groupThresholdOf)
    (hfind : findExistingGroup w domain = none)
    (hfresh : ∀ g ∈ w.groups, g.id ≠ w.nextGroupId) :
    (evaluateAutoGroup w trigger).1.groups =
      w.groups ++ [⟨w.nextGroupId, jsToUpper domain,
        GROUP_COLORS.getD (domainToColorIndex domain) "", true⟩] ∧
    (evaluateAutoGroup w trigger).1.tabs =
      w.tabs.map (fun t =>
        if ((sameDomainTabs w domain).map (·.id)).contains t.id then
          { t with groupId := w.nextGroupId } else t) ∧
    (evaluateAutoGroup w trigger).2 =
      [Event.groupTabs ((sameDomainTabs w domain).map (·.id)) w.nextGroupId,
       Event.updateGroup w.nextGroupId (jsToUpper domain)
         (GROUP_COLORS.getD (domainToColorIndex domain) "") true] := by
  have hany : (w.groups.any (fun g => g.id = w.nextGroupId)) = false := by
    rw [List.any_eq_false]
    intro g hg
    simpa using hfresh g hg
  unfold evaluateAutoGroup
  simp only [hpin, Bool.false_eq_true, if_false, hdom, hwl, if_neg hthr, hfind,
    chromeTabsGroupNew, chromeTabGroupsUpdate]
  simp [hany]

/-- Witness for C7 at the concrete three-tab example.org world. -/
theorem C7_new_group_creation_witness :
    (evaluateAutoGroup C7world C7tabA).1.groups =
      C7world.groups ++ [⟨C7world.nextGroupId, jsToUpper "example.org",
        GROUP_COLORS.getD (domainToColorIndex "example.org") "", true⟩] :=
  (C7_new_group_creation C7world C7tabA "example.org" rfl (by decide) rfl
    (by decide) rfl (by decide)).1

-- ─── Loop invariants for the archival runs ──────────────────────

/-- The parts of the world that stay fixed across one archival run and
that the selection guard and archived entry depend on. -/
def SimOuter (w w' : World) : Prop :=
  w'.config = w.config ∧ w'.alarms = w.alarms ∧ w'.now = w.now ∧
    w'.archivingTabs = w.archivingTabs ∧ w'.ai = w.ai

theorem simOuter_refl (w : World) : SimOuter w w := ⟨rfl, rfl, rfl, rfl, rfl⟩

theorem simOuter_trans {w₀ w₁ w₂ : World}
    (h₁ : SimOuter w₀ w₁) (h₂ : SimOuter w₁ w₂) : SimOuter w₀ w₂ := by
  obtain ⟨a, b, c, d, e⟩ := h₁
  obtain ⟨a', b', c', d', e'⟩ := h₂
  exact ⟨a'.trans a, b'.trans b, c'.trans c, d'.trans d, e'.trans e⟩

theorem archivalSelected_congr {w₀ w : World} (h : SimOuter w₀ w)
    (thr : Int) (t : Tab) :
    archivalSelected w thr t = archivalSelected w₀ thr t := by
  obtain ⟨hc, hal, hn, har, -⟩ := h
  unfold archivalSelected isDomainWhitelisted isTabSnoozed World.whitelistOf
  rw [hc, hal, hn, har]

theorem mkArchivedEntry_congr {w₀ w : World} (h : SimOuter w₀ w) (t : Tab) :
    mkArchivedEntry w t = mkArchivedEntry w₀ t := by
  obtain ⟨-, -, hn, -, hai⟩ := h
  unfold mkArchivedEntry summarizeTab
  rw [hn, hai]

theorem archiveTab_fields (w : World) (t : Tab) :
    (archiveTab w t).1.config = w.config ∧
    (archiveTab w t).1.alarms = w.alarms ∧
    (archiveTab w t).1.now = w.now ∧
    (archiveTab w t).1.archivingTabs = w.archivingTabs ∧
    (archiveTab w t).1.ai = w.ai ∧
    (archiveTab w t).1.groups = w.groups := by
  unfold archiveTab chromeTabsRemove
  split <;> simp

/-- A selected tab is not in the in-flight set (source guard order). -/
theorem archivalSelected_contains_false {w : World} {thr : Int} {tab : Tab}
    (h : archivalSelected w thr tab = true) :
    w.archivingTabs.contains tab.id = false := by
  unfold archivalSelected at h
  cases hc : w.archivingTabs.contains tab.id
  · rfl
  · rw [hc] at h
    simp at h

theorem archivalStep_sim (w : World) (thr : Int) (tab : Tab) :
    SimOuter w (archivalStep w thr tab).1 := by
  unfold archivalStep
  split
  case isTrue hsel =>
      have hc := archivalSelected_contains_false hsel
      have hmem : tab.id ∉ w.archivingTabs := by
        simpa using hc
      set w₁ : World := { w with archivingTabs :=
        if w.archivingTabs.contains tab.id then w.archivingTabs
        else w.archivingTabs ++ [tab.id] } with hw₁
      have hfields := archiveTab_fields w₁ tab
      refine ⟨hfields.1, hfields.2.1, hfields.2.2.1, ?_, hfields.2.2.2.2.1⟩
      show (archiveTab w₁ tab).1.archivingTabs.filter (fun i => i ≠ tab.id) =
        w.archivingTabs
      rw [hfields.2.2.2.1]
      have : w₁.archivingTabs = w.archivingTabs ++ [tab.id] := by
        rw [hw₁]
        simp [hc, hmem]
      have hall2 : ∀ a ∈ w.archivingTabs,
          ((fun i => decide (i ≠ tab.id)) a) = true := by
        intro a ha
        simp only [ne_eq, decide_eq_true_eq]
        intro hEq
        exact hmem (hEq ▸ ha)
      rw [this, List.filter_append, List.filter_eq_self.mpr hall2]
      simp
  case isFalse => exact simOuter_refl w

theorem archiveTab_safe (w : World) (tab t : Tab) (hid : tab.id ≠ t.id) :
    Event.removeTab t.id ∉ (archiveTab w tab).2 ∧
    (t ∈ w.tabs → t ∈ (archiveTab w tab).1.tabs) := by
  have hid' : ¬ (t.id = tab.id) := fun hEq => hid hEq.symm
  unfold archiveTab chromeTabsRemove
  split
  · exact ⟨by simp, fun ht => ht⟩
  · constructor
    · simp [hid']
    · intro ht
      simp only [List.mem_filter]
      exact ⟨ht, by simpa using hid'⟩

theorem archivalStep_safe (w : World) (thr : Int) (tab t : Tab)
    (hne : archivalSelected w thr tab = true → tab.id ≠ t.id) :
    Event.removeTab t.id ∉ (archivalStep w thr tab).2.2 ∧
    (t ∈ w.tabs → t ∈ (archivalStep w thr tab).1.tabs) := by
  unfold archivalStep
  split
  case isTrue hsel =>
      have hid := hne hsel
      dsimp only
      refine ⟨(archiveTab_safe _ tab t hid).1, ?_⟩
      intro ht
      exact (archiveTab_safe _ tab t hid).2 ht
  case isFalse => exact ⟨by simp, fun ht => ht⟩

theorem archivalLoop_safe (ts : List Tab) (w₀ w : World) (thr : Int) (c : Nat)
    (t : Tab) (hsim : SimOuter w₀ w)
    (hall : ∀ p ∈ ts, p.id = t.id → archivalSelected w₀ thr p = false) :
    Event.removeTab t.id ∉ (archivalLoop w thr c ts).2.2 ∧
    (t ∈ w.tabs → t ∈ (archivalLoop w thr c ts).1.tabs) := by
  induction ts generalizing w c with
  | nil => exact ⟨by simp [archivalLoop], fun ht => ht⟩
  | cons p rest ih =>
      have hne : archivalSelected w thr p = true → p.id ≠ t.id := by
        intro hsel hpt
        have hfalse := hall p (List.mem_cons_self p rest) hpt
        rw [archivalSelected_congr hsim] at hsel
        rw [hsel] at hfalse
        exact Bool.noConfusion hfalse
      have hstep := archivalStep_safe w thr p t hne
      have hsim' : SimOuter w₀ (archivalStep w thr p).1 :=
        simOuter_trans hsim (archivalStep_sim w thr p)
      have hrest := ih (archivalStep w thr p).1
        (if (archivalStep w thr p).2.1 then c + 1 else c) hsim'
        (fun q hq hqt => hall q (List.mem_cons_of_mem p hq) hqt)
      simp only [archivalLoop]
      constructor
      · intro hmem
        rcases List.mem_append.mp hmem with h | h
        · exact hstep.1 h
        · exact hrest.1 h
      · intro ht
        exact hrest.2 (hstep.2 ht)

/-- A snoozed tab id is never selected by the archival guard chain. -/
theorem archivalSelected_of_snoozed {w : World} {thr : Int} {t : Tab}
    (h : isTabSnoozed w t.id = true) :
    archivalSelected w thr t = false := by
  unfold archivalSelected
  cases hd : getRootDomain t.url <;> simp [h]

/-- A tab below the idle threshold is never selected. -/
theorem archivalSelected_of_not_idle {w : World} {thr : Int} {t : Tab}
    (h : ¬ (w.now - jsOrTime t.lastAccessed w.now ≥ thr)) :
    archivalSelected w thr t = false := by
  unfold archivalSelected
  cases hd : getRootDomain t.url <;> simp [h]

theorem updateSweepBadge_tabs (w : World) (c : Nat) :
    (updateSweepBadge w c).1.tabs = w.tabs := by
  unfold updateSweepBadge chromeAlarmsCreate
  split <;> rfl

theorem updateSweepBadge_trace (w : World) (c : Nat) :
    (updateSweepBadge w c).2 =
      [Event.setBadge c, Event.createAlarm BADGE_CLEAR_ALARM] := rfl

-- ─── C6 ─────────────────────────────────────────────────────────

/-- C6: a tab whose id carries an active snooze alarm (`snooze-<id>`) is
skipped by both `runIdleTabCheck` and `handleNuclearArchive`: no close is
issued for it and it is still open afterwards, whatever its idle time. -/
theorem C6_snoozed_tab_skipped (w : World) (t : Tab) (ht : t ∈ w.tabs)
    (hsn : isTabSnoozed w t.id = true) :
    (Event.removeTab t.id ∉ (runIdleTabCheck w).2 ∧
      t ∈ (runIdleTabCheck w).1.tabs) ∧
    (Event.removeTab t.id ∉ (handleNuclearArchive w).2.2 ∧
      t ∈ (handleNuclearArchive w).1.tabs) := by
  have hall : ∀ thr : Int, ∀ p ∈ w.tabs, p.id = t.id →
      archivalSelected w thr p = false := by
    intro thr p hp hpt
    exact archivalSelected_of_snoozed (by rw [hpt]; exact hsn)
  constructor
  · have hsafe := archivalLoop_safe w.tabs w w
      (w.idleThresholdHoursOf * 60 * 60 * 1000) 0 t (simOuter_refl w) (hall _)
    exact ⟨hsafe.1, hsafe.2 ht⟩
  · have hsafe := archivalLoop_safe w.tabs w w
      (NUCLEAR_IDLE_HOURS * 60 * 60 * 1000) 0 t (simOuter_refl w) (hall _)
    unfold handleNuclearArchive
    dsimp only
    split
    · constructor
      · intro hmem
        rcases List.mem_append.mp hmem with h | h
        · exact hsafe.1 h
        · rw [updateSweepBadge_trace] at h
          simp at h
      · rw [updateSweepBadge_tabs]
        exact hsafe.2 ht
    · exact ⟨hsafe.1, hsafe.2 ht⟩

/-- Tab id 42 with an idle time far past every threshold. -/
def C6tab : Tab :=
  ⟨42, "https://news.example.net/story", some "Story", none, false, false,
   some 1, "complete", -1⟩

/-- World in which the snooze alarm `snooze-42` is pending and tab 42 has
been idle for 200 hours. -/
def C6world : World :=
  { emptyWorld with
      tabs := [C6tab], now := 200 * 60 * 60 * 1000, alarms := ["snooze-42"] }

/-- Witness for C6: the idle check skips snoozed tab 42. -/
theorem C6_snoozed_tab_skipped_witness :
    Event.removeTab C6tab.id ∉ (runIdleTabCheck C6world).2 ∧
    C6tab ∈ (runIdleTabCheck C6world).1.tabs :=
  (C6_snoozed_tab_skipped C6world C6tab (by decide) (by decide)).1

-- ─── C10 ────────────────────────────────────────────────────────

/-- C10: a tab with no `lastAccessed` timestamp is treated as just
interacted with — its computed idle time is zero, `isTabStuck` never
reports it stuck whatever its loading status, and (given a positive idle
threshold and provider-unique tab ids) neither `runIdleTabCheck` nor
`handleNuclearArchive` selects it: it stays open and no close is issued. -/
theorem C10_missing_lastAccessed (w : World) (t : Tab) (ht : t ∈ w.tabs)
    (hla : t.lastAccessed = none)
    (hthr : 0 < w.idleThresholdHoursOf)
    (hnodup : (w.tabs.map (·.id)).Nodup) :
    isTabStuck w t = false ∧
    w.now - jsOrTime t.lastAccessed w.now = 0 ∧
    (Event.removeTab t.id ∉ (runIdleTabCheck w).2 ∧
      t ∈ (runIdleTabCheck w).1.tabs) ∧
    (Event.removeTab t.id ∉ (handleNuclearArchive w).2.2 ∧
      t ∈ (handleNuclearArchive w).1.tabs) := by
  have hzero : w.now - jsOrTime t.lastAccessed w.now = 0 := by
    rw [hla]
    simp [jsOrTime]
  have hstuck : isTabStuck w t = false := by
    unfold isTabStuck
    split
    · rfl
    · rw [hzero]
      simp [STUCK_TAB_THRESHOLD_MS]
  have hinj := List.inj_on_of_nodup_map hnodup
  refine ⟨hstuck, hzero, ?_, ?_⟩
  · have hall : ∀ p ∈ w.tabs, p.id = t.id →
        archivalSelected w (w.idleThresholdHoursOf * 60 * 60 * 1000) p = false := by
      intro p hp hpt
      have hpt' : p = t := hinj hp ht hpt
      subst hpt'
      apply archivalSelected_of_not_idle
      rw [hzero]
      intro hge
      omega
    have hsafe := archivalLoop_safe w.tabs w w
      (w.idleThresholdHoursOf * 60 * 60 * 1000) 0 t (simOuter_refl w) hall
    exact ⟨hsafe.1, hsafe.2 ht⟩
  · have hall : ∀ p ∈ w.tabs, p.id = t.id →
        archivalSelected w (NUCLEAR_IDLE_HOURS * 60 * 60 * 1000) p = false := by
      intro p hp hpt
      have hpt' : p = t := hinj hp ht hpt
      subst hpt'
      apply archivalSelected_of_not_idle
      rw [hzero]
      unfold NUCLEAR_IDLE_HOURS
      omega
    have hsafe := archivalLoop_safe w.tabs w w
      (NUCLEAR_IDLE_HOURS * 60 * 60 * 1000) 0 t (simOuter_refl w) hall
    unfold handleNuclearArchive
    dsimp only
    split
    · constructor
      · intro hmem
        rcases List.mem_append.mp hmem with h | h
        · exact hsafe.1 h
        · rw [updateSweepBadge_trace] at h
          simp at h
      · rw [updateSweepBadge_tabs]
        exact hsafe.2 ht
    · exact ⟨hsafe.1, hsafe.2 ht⟩

/-- Tab with a missing `lastAccessed`, stuck in `loading`. -/
def C10tab : Tab :=
  ⟨5, "https://slow.example.com/", some "Loading", none, false, false,
   none, "loading", -1⟩

/-- World containing only `C10tab`, with the clock far advanced. -/
def C10world : World :=
  { emptyWorld with tabs := [C10tab], now := 500 * 60 * 60 * 1000 }

/-- Witness for C10 at the concrete no-timestamp tab. -/
theorem C10_missing_lastAccessed_witness :
    isTabStuck C10world C10tab = false ∧
    C10world.now - jsOrTime C10tab.lastAccessed C10world.now = 0 :=
  ⟨(C10_missing_lastAccessed C10world C10tab (by decide) rfl (by decide)
      (by decide)).1,
   (C10_missing_lastAccessed C10world C10tab (by decide) rfl (by decide)
      (by decide)).2.1⟩

-- ─── C4: nuclear archive characterization ───────────────────────

/-- Recognizer for the count-badge signal. -/
def isBadge : Event → Bool
  | Event.setBadge _ => true
  | _ => false

/-- The claim's eligibility predicate for `handleNuclearArchive`:
non-pinned, non-audible, groupable (http/https), non-whitelisted,
non-snoozed, and idle for at least `NUCLEAR_IDLE_HOURS`. -/
def nuclearEligible (w : World) (t : Tab) : Bool :=
  !t.pinned && !t.audible &&
    (match getRootDomain t.url with
     | none => false
     | some d => !(isDomainWhitelisted w d)) &&
    !(isTabSnoozed w t.id) &&
    decide (w.now - jsOrTime t.lastAccessed w.now ≥
      NUCLEAR_IDLE_HOURS * 60 * 60 * 1000)

/-- With an empty in-flight set, the source guard chain coincides with the
claim's eligibility predicate. -/
theorem archivalSelected_eq_nuclearEligible (w : World)
    (hA : w.archivingTabs = []) (t : Tab) :
    archivalSelected w (NUCLEAR_IDLE_HOURS * 60 * 60 * 1000) t =
      nuclearEligible w t := by
  unfold archivalSelected nuclearEligible
  rw [hA]
  cases hd : getRootDomain t.url
  · simp
  · simp [Bool.and_assoc]

theorem archivalStep_unselected (w : World) (thr : Int) (tab : Tab)
    (hsel : archivalSelected w thr tab = false) :
    archivalStep w thr tab = (w, false, []) := by
  unfold archivalStep
  simp [hsel]

theorem archiveTab_present (w : World) (tab : Tab)
    (hex : w.tabExists tab.id = true) :
    (archiveTab w tab).1.archived = w.archived ++ [mkArchivedEntry w tab] ∧
    (archiveTab w tab).1.tabs = w.tabs.filter (fun t => t.id ≠ tab.id) ∧
    (archiveTab w tab).2.any isBadge = false := by
  unfold archiveTab chromeTabsRemove
  rw [if_neg (by simp [hex])]
  refine ⟨rfl, rfl, ?_⟩
  simp [isBadge]

theorem archivalStep_selected (w : World) (thr : Int) (tab : Tab)
    (hsel : archivalSelected w thr tab = true)
    (hex : w.tabExists tab.id = true) :
    (archivalStep w thr tab).2.1 = true ∧
    (archivalStep w thr tab).1.archived = w.archived ++ [mkArchivedEntry w tab] ∧
    (archivalStep w thr tab).1.tabs = w.tabs.filter (fun t => t.id ≠ tab.id) ∧
    (archivalStep w thr tab).2.2.any isBadge = false := by
  unfold archivalStep
  rw [if_pos hsel]
  have hpresent := archiveTab_present { w with archivingTabs :=
      (if (w.archivingTabs.contains tab.id) then w.archivingTabs
       else w.archivingTabs ++ [tab.id]) } tab hex
  exact ⟨rfl, hpresent.1, hpresent.2.1, hpresent.2.2⟩

theorem archivalLoop_char (ts : List Tab) (w₀ w : World) (thr : Int) (c : Nat)
    (hsim : SimOuter w₀ w)
    (hmem : ∀ p ∈ ts, p ∈ w.tabs)
    (hnd : (ts.map (·.id)).Nodup) :
    (archivalLoop w thr c ts).2.1 =
      c + (ts.filter (archivalSelected w₀ thr)).length ∧
    (archivalLoop w thr c ts).1.archived =
      w.archived ++ (ts.filter (archivalSelected w₀ thr)).map (mkArchivedEntry w₀) ∧
    (archivalLoop w thr c ts).1.tabs =
      w.tabs.filter (fun t =>
        !(ts.any (fun p => archivalSelected w₀ thr p && p.id == t.id))) ∧
    (archivalLoop w thr c ts).2.2.any isBadge = false := by
  induction ts generalizing w c with
  | nil =>
      refine ⟨by simp [archivalLoop], by simp [archivalLoop], ?_, by simp [archivalLoop]⟩
      simp only [archivalLoop, List.any_nil, Bool.not_false]
      exact (List.filter_eq_self.mpr (fun a _ => rfl)).symm
  | cons p rest ih =>
      have hndTail : (rest.map (·.id)).Nodup := by
        simpa using hnd.of_cons
      have hpid : p.id ∉ rest.map (·.id) := by
        have := hnd
        simp only [List.map_cons, List.nodup_cons] at this
        exact this.1
      cases hsel : archivalSelected w thr p with
      | false =>
          have hsel₀ : archivalSelected w₀ thr p = false := by
            rw [← archivalSelected_congr hsim]; exact hsel
          have hrest := ih w c hsim
            (fun q hq => hmem q (List.mem_cons_of_mem p hq)) hndTail
          simp only [archivalLoop, archivalStep_unselected w thr p hsel]
          simp only [Bool.false_eq_true, if_false]
          refine ⟨?_, ?_, ?_, ?_⟩
          · rw [hrest.1, List.filter_cons_of_neg (by simp [hsel₀])]
          · rw [hrest.2.1, List.filter_cons_of_neg (by simp [hsel₀])]
          · rw [hrest.2.2.1]
            apply List.filter_congr
            intro t ht
            simp [List.any_cons, hsel₀]
          · simpa using hrest.2.2.2
      | true =>
          have hsel₀ : archivalSelected w₀ thr p = true := by
            rw [← archivalSelected_congr hsim]; exact hsel
          have hex : w.tabExists p.id = true := by
            unfold World.tabExists
            rw [List.any_eq_true]
            exact ⟨p, hmem p (List.mem_cons_self p rest), by simp⟩
          have hstep := archivalStep_selected w thr p hsel hex
          have hsim' : SimOuter w₀ (archivalStep w thr p).1 :=
            simOuter_trans hsim (archivalStep_sim w thr p)
          have hmem' : ∀ q ∈ rest, q ∈ (archivalStep w thr p).1.tabs := by
            intro q hq
            rw [hstep.2.2.1, List.mem_filter]
            refine ⟨hmem q (List.mem_cons_of_mem p hq), ?_⟩
            simp only [ne_eq, decide_eq_true_eq]
            intro hEq
            exact hpid (hEq ▸ List.mem_map_of_mem (·.id) hq)
          have hrest := ih (archivalStep w thr p).1 (c + 1) hsim' hmem' hndTail
          simp only [archivalLoop, hstep.1]
          simp only [eq_self_iff_true, if_true]
          refine ⟨?_, ?_, ?_, ?_⟩
          · rw [hrest.1, List.filter_cons_of_pos (by simp [hsel₀])]
            simp only [List.length_cons]
            omega
          · rw [hrest.2.1, hstep.2.1,
              List.filter_cons_of_pos (by simp [hsel₀]), List.map_cons,
              mkArchivedEntry_congr hsim p]
            simp [List.append_assoc]
          · rw [hrest.2.2.1, hstep.2.2.1, List.filter_filter]
            apply List.filter_congr
            intro t ht
            by_cases hid : p.id = t.id
            · simp [List.any_cons, hsel₀, hid]
            · simp [List.any_cons, hsel₀, hid, Ne.symm hid]
          · rw [List.any_append, hstep.2.2.2, hrest.2.2.2]
            rfl

theorem updateSweepBadge_archived (w : World) (c : Nat) :
    (updateSweepBadge w c).1.archived = w.archived := by
  unfold updateSweepBadge chromeAlarmsCreate
  split <;> rfl

/-- C4: with no archival in flight and provider-unique tab ids,
`handleNuclearArchive` archives exactly the non-pinned, non-audible,
groupable, non-whitelisted, non-snoozed tabs idle for at least 4 hours:
it appends exactly their archived entries, closes exactly those tabs
(everything else — pinned tabs included — stays open), returns their
count, and emits the count-badge signal iff that count is nonzero. -/
theorem C4_nuclear_archive (w : World) (hA : w.archivingTabs = [])
    (hnd : (w.tabs.map (fun t => t.id)).Nodup) :
    (handleNuclearArchive w).2.1 = (w.tabs.filter (nuclearEligible w)).length ∧
    (handleNuclearArchive w).1.archived =
      w.archived ++ (w.tabs.filter (nuclearEligible w)).map (mkArchivedEntry w) ∧
    (handleNuclearArchive w).1.tabs =
      w.tabs.filter (fun t => !(nuclearEligible w t)) ∧
    ((handleNuclearArchive w).2.2.any isBadge = true ↔
      (handleNuclearArchive w).2.1 ≠ 0) := by
  have hchar := archivalLoop_char w.tabs w w
    (NUCLEAR_IDLE_HOURS * 60 * 60 * 1000) 0 (simOuter_refl w)
    (fun p hp => hp) hnd
  have hfe : List.filter
      (archivalSelected w (NUCLEAR_IDLE_HOURS * 60 * 60 * 1000)) w.tabs =
      List.filter (nuclearEligible w) w.tabs :=
    List.filter_congr (fun t _ => archivalSelected_eq_nuclearEligible w hA t)
  have hinj := List.inj_on_of_nodup_map hnd
  have hpt : List.filter (fun t =>
      !(w.tabs.any (fun p =>
        archivalSelected w (NUCLEAR_IDLE_HOURS * 60 * 60 * 1000) p &&
          p.id == t.id))) w.tabs =
      List.filter (fun t => !(nuclearEligible w t)) w.tabs := by
    apply List.filter_congr
    intro t ht
    congr 1
    cases he : nuclearEligible w t with
    | true =>
        apply List.any_eq_true.mpr
        refine ⟨t, ht, ?_⟩
        rw [archivalSelected_eq_nuclearEligible w hA, he]
        simp
    | false =>
        apply List.any_eq_false.mpr
        intro p hp
        rw [archivalSelected_eq_nuclearEligible w hA]
        simp only [Bool.and_eq_true, beq_iff_eq, not_and]
        intro hep hid
        have : p = t := hinj hp ht hid
        rw [this] at hep
        rw [hep] at he
        exact Bool.noConfusion he
  unfold handleNuclearArchive
  dsimp only
  split
  case isTrue h =>
      dsimp only
      refine ⟨?_, ?_, ?_, ?_⟩
      · rw [hchar.1, hfe]
        omega
      · rw [updateSweepBadge_archived, hchar.2.1, hfe]
      · rw [updateSweepBadge_tabs, hchar.2.2.1, hpt]
      · constructor
        · intro _
          rw [hchar.1, hfe]
          rw [hchar.1, hfe] at h
          omega
        · intro _
          rw [List.any_append, hchar.2.2.2, updateSweepBadge_trace]
          simp [isBadge]
  case isFalse h =>
      dsimp only
      refine ⟨?_, ?_, ?_, ?_⟩
      · rw [hchar.1, hfe]
        omega
      · rw [hchar.2.1, hfe]
      · rw [hchar.2.2.1, hpt]
      · rw [hchar.2.2.2, hchar.1, hfe]
        rw [hchar.1, hfe] at h
        simp only [Bool.false_eq_true, false_iff, ne_eq, not_not]
        omega

/-- Eligible tab one: idle 10 hours. -/
def C4tabE1 : Tab :=
  ⟨21, "https://alpha.example.com/", some "Alpha", none, false, false,
   some 1000, "complete", -1⟩

/-- Eligible tab two: idle 10 hours. -/
def C4tabE2 : Tab :=
  ⟨22, "https://beta.example.com/", some "Beta", none, false, false,
   some 1000, "complete", -1⟩

/-- Pinned tab, also idle 10 hours. -/
def C4tabPinned : Tab :=
  ⟨23, "https://gamma.example.com/", some "Gamma", none, true, false,
   some 1000, "complete", -1⟩

/-- The claim's nuclear scenario: two eligible tabs and one pinned tab,
all idle 10 hours against the fixed 4-hour threshold. -/
def C4world : World :=
  { emptyWorld with
      tabs := [C4tabE1, C4tabE2, C4tabPinned],
      now := 1000 + 10 * 60 * 60 * 1000 }

/-- Witness for C4: exactly 2 tabs archived, the pinned tab stays open,
the returned count is 2. -/
theorem C4_nuclear_archive_witness :
    (handleNuclearArchive C4world).2.1 = 2 ∧
    C4tabPinned ∈ (handleNuclearArchive C4world).1.tabs ∧
    (handleNuclearArchive C4world).1.archived.length = 2 := by
  have h := C4_nuclear_archive C4world rfl (by decide)
  refine ⟨?_, ?_, ?_⟩
  · rw [h.1]
    decide
  · rw [h.2.2.1]
    decide
  · rw [h.2.1]
    decide

-- ─── C8: defensive topic-grouping reconciliation ────────────────

/-- A cluster the loop must discard: falsy title, missing indices array,
or fewer than two members. -/
def malformedCluster (c : RawCluster) : Prop :=
  jsTruthyStr c.title = false ∨ c.indices = none ∨
    ∃ l, c.indices = some l ∧ l.length < 2

theorem processCluster_malformed (w : World) (cand : List Tab)
    (c : RawCluster) (h : malformedCluster c) :
    processCluster w cand c = (w, []) := by
  unfold processCluster
  rcases h with h | h | ⟨l, hl, hlen⟩
  · rw [if_pos (by simp [h])]
  · by_cases ht : jsTruthyStr c.title = true
    · rw [if_neg (by simp [ht]), h]
    · rw [if_pos (by simp [Bool.not_eq_true] at ht ⊢; exact ht)]
  · by_cases ht : jsTruthyStr c.title = true
    · rw [if_neg (by simp [ht]), hl]
      dsimp only
      rw [if_pos hlen]
    · rw [if_pos (by simp [Bool.not_eq_true] at ht ⊢; exact ht)]

theorem clustersLoop_skips_malformed (w : World) (cand : List Tab)
    (cs₁ cs₂ : List RawCluster) (c : RawCluster) (h : malformedCluster c) :
    clustersLoop w cand (cs₁ ++ c :: cs₂) = clustersLoop w cand (cs₁ ++ cs₂) := by
  induction cs₁ generalizing w with
  | nil =>
      simp only [List.nil_append, clustersLoop,
        processCluster_malformed w cand c h]
  | cons d rest ih =>
      show clustersLoop w cand (d :: (rest ++ c :: cs₂)) =
        clustersLoop w cand (d :: (rest ++ cs₂))
      simp only [clustersLoop]
      rw [ih]

theorem runTopicGrouping_min_tabs (w : World) (manual : Bool)
    (h : (topicCandidates w).length < TOPIC_GROUPING_MIN_TABS) :
    runTopicGrouping w manual = (w, []) := by
  unfold runTopicGrouping
  split
  · rfl
  · rw [if_pos h]

theorem runTopicGrouping_clusters (w : World) (manual : Bool)
    (cs : List RawCluster)
    (hrun : ¬ (¬ manual = true ∧
      ¬ ((w.config.map (fun c => c.enableTopicGrouping)).getD false) = true))
    (hmin : ¬ (topicCandidates w).length < TOPIC_GROUPING_MIN_TABS)
    (hai : w.aiClusters (topicPrompt (topicCandidates w)) = AiParse.clusters cs) :
    runTopicGrouping w manual = clustersLoop w (topicCandidates w) cs := by
  unfold runTopicGrouping
  rw [if_neg hrun, if_neg hmin, hai]

theorem processCluster_commit (w : World) (cand : List Tab) (title : String)
    (indices : List Int) (ht : ¬ title = "")
    (hv : 2 ≤ ((clusterTabIds cand indices).filter (stillUngrouped w)).length) :
    processCluster w cand ⟨some title, some indices⟩ =
      (chromeTabGroupsUpdate
         (chromeTabsGroupNew w
           ((clusterTabIds cand indices).filter (stillUngrouped w))).1
         w.nextGroupId (jsToUpper title)
         (GROUP_COLORS.getD (domainToColorIndex (jsToLower title)) "") true,
       [Event.groupTabs ((clusterTabIds cand indices).filter (stillUngrouped w))
          w.nextGroupId,
        Event.updateGroup w.nextGroupId (jsToUpper title)
          (GROUP_COLORS.getD (domainToColorIndex (jsToLower title)) "") true]) := by
  have h1 : ((clusterTabIds cand indices).filter (stillUngrouped w)).length ≤
      (clusterTabIds cand indices).length := List.length_filter_le _ _
  have h2 : (clusterTabIds cand indices).length ≤
      (indices.filter (fun i =>
        decide (0 ≤ i) && decide (i < (cand.length : Int)))).length :=
    List.length_filterMap_le _ _
  have h3 : (indices.filter (fun i =>
      decide (0 ≤ i) && decide (i < (cand.length : Int)))).length ≤
      indices.length := List.length_filter_le _ _
  unfold processCluster
  rw [if_neg (by simp [jsTruthyStr, ht])]
  dsimp only
  rw [if_neg (by omega)]
  rw [if_neg (by omega), if_neg (by omega)]
  rfl

theorem processCluster_small (w : World) (cand : List Tab) (title : String)
    (indices : List Int)
    (hv : ((clusterTabIds cand indices).filter (stillUngrouped w)).length < 2) :
    processCluster w cand ⟨some title, some indices⟩ = (w, []) := by
  unfold processCluster
  by_cases ht : jsTruthyStr (some title) = true
  · rw [if_neg (by simp [ht])]
    dsimp only
    by_cases hlen : indices.length < 2
    · rw [if_pos hlen]
    · rw [if_neg hlen]
      by_cases htl : (clusterTabIds cand indices).length < 2
      · rw [if_pos htl]
      · rw [if_neg htl, if_pos hv]
  · rw [if_pos (by simp [Bool.not_eq_true] at ht ⊢; exact ht)]

theorem stillUngrouped_iff (w : World) (id : Nat)
    (hnd : (w.tabs.map (fun t => t.id)).Nodup) :
    stillUngrouped w id = true ↔ ∃ t ∈ w.tabs, t.id = id ∧ t.groupId = -1 := by
  unfold stillUngrouped
  constructor
  · intro h
    cases hf : w.tabs.find? (fun t => t.id = id) with
    | none => rw [hf] at h; exact Bool.noConfusion h
    | some t =>
        rw [hf] at h
        have hmem := List.mem_of_find?_eq_some hf
        have hp := List.find?_some hf
        exact ⟨t, hmem, by simpa using hp, by simpa using h⟩
  · rintro ⟨t, hmem, hid, hgrp⟩
    have hex : ∃ x ∈ w.tabs, ((fun t => decide (t.id = id)) x) = true :=
      ⟨t, hmem, by simpa using hid⟩
    have hsome : (w.tabs.find? (fun t => t.id = id)).isSome := by
      rw [List.find?_isSome]
      exact hex
    obtain ⟨x, hx⟩ := Option.isSome_iff_exists.mp hsome
    rw [hx]
    have hxmem := List.mem_of_find?_eq_some hx
    have hxid : x.id = id := by simpa using List.find?_some hx
    have hinj := List.inj_on_of_nodup_map hnd
    have hxt : x = t := hinj hxmem hmem (by rw [hxid, hid])
    rw [hxt]
    simpa using hgrp

/-- C8: topic-grouping reconciliation is defensive — a run with fewer
than 4 candidates creates no groups and changes nothing; a malformed
cluster (falsy title, missing indices array, or fewer than two members)
is discarded individually, leaving the processing of every other cluster
unchanged; a well-formed cluster is committed exactly for the subset of
its referenced candidate tabs re-verified (against unique provider ids)
to still exist and still be ungrouped, and only when that subset has at
least two members, else it is dropped with no effect; and a decoded
cluster list is processed by exactly this per-cluster loop. -/
theorem C8_topic_reconciliation :
    (∀ w manual, (topicCandidates w).length < TOPIC_GROUPING_MIN_TABS →
      runTopicGrouping w manual = (w, [])) ∧
    (∀ w cand cs₁ cs₂ c, malformedCluster c →
      clustersLoop w cand (cs₁ ++ c :: cs₂) = clustersLoop w cand (cs₁ ++ cs₂)) ∧
    (∀ w cand title indices, ¬ title = "" →
      (2 ≤ ((clusterTabIds cand indices).filter (stillUngrouped w)).length →
        processCluster w cand ⟨some title, some indices⟩ =
          (chromeTabGroupsUpdate
             (chromeTabsGroupNew w
               ((clusterTabIds cand indices).filter (stillUngrouped w))).1
             w.nextGroupId (jsToUpper title)
             (GROUP_COLORS.getD (domainToColorIndex (jsToLower title)) "") true,
           [Event.groupTabs
              ((clusterTabIds cand indices).filter (stillUngrouped w))
              w.nextGroupId,
            Event.updateGroup w.nextGroupId (jsToUpper title)
              (GROUP_COLORS.getD (domainToColorIndex (jsToLower title)) "")
              true])) ∧
      (((clusterTabIds cand indices).filter (stillUngrouped w)).length < 2 →
        processCluster w cand ⟨some title, some indices⟩ = (w, []))) ∧
    (∀ w id, (w.tabs.map (fun t => t.id)).Nodup →
      (stillUngrouped w id = true ↔ ∃ t ∈ w.tabs, t.id = id ∧ t.groupId = -1)) ∧
    (∀ w manual cs,
      ¬ (¬ manual = true ∧
        ¬ ((w.config.map (fun c => c.enableTopicGrouping)).getD false) = true) →
      ¬ (topicCandidates w).length < TOPIC_GROUPING_MIN_TABS →
      w.aiClusters (topicPrompt (topicCandidates w)) = AiParse.clusters cs →
      runTopicGrouping w manual = clustersLoop w (topicCandidates w) cs) :=
  ⟨runTopicGrouping_min_tabs,
   clustersLoop_skips_malformed,
   fun w cand title indices ht =>
     ⟨processCluster_commit w cand title indices ht,
      processCluster_small w cand title indices⟩,
   stillUngrouped_iff,
   runTopicGrouping_clusters⟩

/-- Witness for C8: with no tabs at all (zero candidates) a manual run
changes nothing and emits nothing. -/
theorem C8_topic_reconciliation_witness :
    runTopicGrouping emptyWorld true = (emptyWorld, []) :=
  C8_topic_reconciliation.1 emptyWorld true (by decide)
